import Mathlib

/-!
Shallow embedding of the PRJ-Mesa-Geo travel-simulation core, and proofs of
the behavioural claims C1–C10 about it.

Conventions of the embedding:
* Python `float` arithmetic on times, lengths and speeds is modelled by exact
  rational arithmetic (`ℚ`).  Python `int` is `ℤ` (or `ℕ` for counters and
  node identifiers that the code never makes negative).
* Python functions that can raise an exception (unpacking `None`, `IndexError`,
  `ValueError` from `int(...)`) are modelled as `Option`-valued functions, with
  `none` standing for "the call raises".
* Python `dict`s are modelled as association lists updated in place
  (`dictSet`), which preserves the dict's unique-key semantics.
-/

namespace MesaGeo

/-! ## Clock — `src/transport_model/time.py` -/

/-- `Time` from `time.py`: an hour (Python `int`) and a minute
(Python `float`, here `ℚ`). -/
structure Time where
  hour : ℤ
  minute : ℚ
  deriving DecidableEq, Repr

/-- `Time.n_mins_from_now` from `time.py` (lines 28–44): add `n` minutes
(assumed `< 60`); minute overflow increments the hour, hour 24 wraps to 0. -/
def Time.n_mins_from_now (t : Time) (n : ℚ) : Time :=
  if 60 ≤ t.minute + n then
    { hour := if t.hour + 1 = 24 then 0 else t.hour + 1
      minute := t.minute + n - 60 }
  else
    { hour := t.hour, minute := t.minute + n }

/-- `Time.time_to` from `time.py` (lines 46–62): forward gap in minutes from
`t` to `e`, wrapping through midnight when `e` is earlier in wall-clock terms. -/
def Time.time_to (t e : Time) : ℚ :=
  if e.hour < t.hour ∨ (e.hour = t.hour ∧ e.minute < t.minute) then
    ((60 * (23 - (t.hour : ℚ))) + (60 - t.minute)) + ((60 * (e.hour : ℚ)) + e.minute)
  else
    (60 * ((e.hour : ℚ) - (t.hour : ℚ))) + (e.minute - t.minute)

/-- A clock value in the canonical range the model always constructs:
hour in 0..23, minute in [0, 60). -/
def Time.Canonical (t : Time) : Prop :=
  0 ≤ t.hour ∧ t.hour ≤ 23 ∧ 0 ≤ t.minute ∧ t.minute < 60

instance (t : Time) : Decidable t.Canonical := by
  unfold Time.Canonical; infer_instance

/-! ## MemoryEntry — `src/transport_model/memory.py` -/

/-- `MemoryEntry` from `memory.py`: running mean travel time and completion
count.  A fresh entry (`__init__`) is `⟨0, 0⟩`. -/
structure MemoryEntry where
  travel_time : ℚ
  count : ℕ
  deriving DecidableEq, Repr

/-- `MemoryEntry()` constructor: `travel_time = 0.0`, `count = 0`. -/
def MemoryEntry.fresh : MemoryEntry := ⟨0, 0⟩

/-- `MemoryEntry.update` from `memory.py` (lines 32–40): online running
average `travel_time = ((travel_time * count) + new_time) / (count + 1)`,
then `count += 1`. -/
def MemoryEntry.update (e : MemoryEntry) (new_time : ℚ) : MemoryEntry :=
  { travel_time := ((e.travel_time * e.count) + new_time) / ((e.count : ℚ) + 1)
    count := e.count + 1 }

/-- Applying `update` once for each duration in a list, in order. -/
def MemoryEntry.updateAll (e : MemoryEntry) (l : List ℚ) : MemoryEntry :=
  l.foldl MemoryEntry.update e

theorem MemoryEntry.updateAll_closed (l : List ℚ) :
    ∀ (tt : ℚ) (c : ℕ), l ≠ [] →
      MemoryEntry.updateAll ⟨tt, c⟩ l =
        ⟨(tt * c + l.sum) / ((c : ℚ) + l.length), c + l.length⟩ := by
  induction l with
  | nil => intro _ _ h; exact absurd rfl h
  | cons x rest ih =>
    intro tt c _
    by_cases hr : rest = []
    · subst hr
      simp [MemoryEntry.updateAll, MemoryEntry.update]
    · have step : MemoryEntry.updateAll ⟨tt, c⟩ (x :: rest) =
          MemoryEntry.updateAll ⟨(tt * c + x) / ((c : ℚ) + 1), c + 1⟩ rest := by
        simp [MemoryEntry.updateAll, MemoryEntry.update]
      rw [step, ih _ _ hr]
      have hc1 : ((c : ℚ) + 1) ≠ 0 := by positivity
      simp only [List.sum_cons, List.length_cons]
      congr 1
      · push_cast
        rw [div_mul_cancel₀ _ hc1]
        ring_nf
      · omega

/-- The final state after folding any list of durations into a fresh entry:
count is the list length and the stored mean is the arithmetic mean
(`sum / length`; for the empty list both sides are the fresh `0`). -/
theorem MemoryEntry.updateAll_fresh (l : List ℚ) :
    MemoryEntry.updateAll MemoryEntry.fresh l =
      ⟨l.sum / (l.length : ℚ), l.length⟩ := by
  by_cases h : l = []
  · subst h; simp [MemoryEntry.updateAll, MemoryEntry.fresh]
  · rw [MemoryEntry.fresh, MemoryEntry.updateAll_closed l 0 0 h]
    simp

/-! ## String helpers for `DriveNetwork` maxspeed parsing -/

/-- Splitter for Python `str.split()` with no argument: walk the characters
with the (reversed) current token as accumulator, breaking on whitespace and
discarding empty tokens. -/
def splitWsAux : List Char → List Char → List String
  | [], acc => if acc.isEmpty then [] else [⟨acc.reverse⟩]
  | c :: rest, acc =>
    if c.isWhitespace then
      if acc.isEmpty then splitWsAux rest [] else ⟨acc.reverse⟩ :: splitWsAux rest []
    else
      splitWsAux rest (c :: acc)

/-- Python `str.split()` with no argument: split on runs of whitespace and
discard the empty pieces. -/
def pythonSplit (s : String) : List String :=
  splitWsAux s.data []

/-- Splitter for Python `str.split(sep)` with a one-character separator:
empty pieces are kept. -/
def splitCharAux (sep : Char) : List Char → List Char → List String
  | [], acc => [⟨acc.reverse⟩]
  | c :: rest, acc =>
    if c = sep then ⟨acc.reverse⟩ :: splitCharAux sep rest []
    else splitCharAux sep rest (c :: acc)

/-- Python `s.split(sep)` for a one-character separator `sep`. -/
def splitOnChar (sep : Char) (s : String) : List String :=
  splitCharAux sep s.data []

/-- A non-empty all-digit character list read as a number (`none` otherwise). -/
def digitsToNat (cs : List Char) : Option ℕ :=
  if cs ≠ [] ∧ cs.all Char.isDigit then
    some (cs.foldl (fun a c => 10 * a + (c.toNat - 48)) 0)
  else
    none

/-- Strip leading and trailing whitespace from a character list. -/
def pyTrim (cs : List Char) : List Char :=
  ((cs.dropWhile Char.isWhitespace).reverse.dropWhile Char.isWhitespace).reverse

/-- Python `int(s)` on a string: optional surrounding whitespace, an optional
sign, then decimal digits; anything else raises `ValueError` (`none`). -/
def parsePyInt (s : String) : Option ℤ :=
  match pyTrim s.data with
  | '-' :: rest => (digitsToNat rest).map (fun n => -(n : ℤ))
  | '+' :: rest => (digitsToNat rest).map (fun n => (n : ℤ))
  | cs => (digitsToNat cs).map (fun n => (n : ℤ))

/-! ## Networks — `src/transport_model/network.py` -/

/-- `Edge` from `network.py`: a directed node pair. -/
structure Edge where
  u : ℕ
  v : ℕ
  deriving DecidableEq, Repr

/-- An edge's `maxspeed` attribute: either one string or (at limit-change
points) a list of strings. -/
inductive Maxspeed where
  | single (s : String)
  | multi (ss : List String)
  deriving DecidableEq, Repr

/-- `DriveNetwork._get_num_limit` (lines 265–277): `parts = limit.split()`;
`speed = int(parts[0])` (may raise `ValueError`, and `IndexError` on an empty
split); `if parts[1] == "mph"` (raises `IndexError` when there is no second
token) multiply by 1.609344.  `none` models the raised exception. -/
def getNumLimit (limit : String) : Option ℚ :=
  let parts := pythonSplit limit
  match parts.get? 0 with
  | none => none
  | some p0 =>
    match parsePyInt p0 with
    | none => none
    | some n =>
      match parts.get? 1 with
      | none => none
      | some p1 =>
        if p1 = "mph" then some ((n : ℚ) * (1609344 / 1000000)) else some (n : ℚ)

/-- `DriveNetwork._get_speed_limit` (lines 279–296): the configured default
when the edge has no `maxspeed`; the arithmetic mean of the parsed limits when
it is a list; the parsed limit otherwise. -/
def getSpeedLimit (defaultLimit : ℚ) : Option Maxspeed → Option ℚ
  | none => some defaultLimit
  | some (.multi ss) => (ss.mapM getNumLimit).map (fun qs => qs.sum / (ss.length : ℚ))
  | some (.single s) => getNumLimit s

/-- `DriveNetwork._get_edge_time` (lines 305–317): the `speed` argument is
accepted but unused; `((length / 1000) / (speed_limit * speed_factor)) * 60`.
`none` models the exception propagated from `_get_speed_limit`. -/
def driveEdgeTime (defaultLimit speedFactor : ℚ) (length : ℚ) (ms : Option Maxspeed)
    (speed : Option ℚ) : Option ℚ :=
  (getSpeedLimit defaultLimit ms).map
    (fun speedLimit => ((length / 1000) / (speedLimit * speedFactor)) * 60)

/-- `ActiveNetwork._get_edge_time` (lines 336–346): walking/cycling time from
edge length and the caller-supplied speed: `((length / 1000) / speed) * 60`. -/
def activeEdgeTime (length speed : ℚ) : ℚ :=
  ((length / 1000) / speed) * 60

/-- The part of a `TransportNetwork` the traversal logic reads: node
coordinates and the per-edge traversal time already produced by the
mode's `_get_edge_time` (with the agent's speed folded in). -/
structure NetModel where
  coords : ℕ → ℚ × ℚ
  edgeTime : ℕ → ℕ → ℚ

/-- `Route` from `routes.py`: a transport mode and the ordered node path. -/
structure Route where
  mode : String
  path : List ℕ
  deriving DecidableEq, Repr

/-- Modelled from the spec: `RouteProgress` is imported by `network.py` from
`transport_model/routes.py` but absent from that file in `src/`.  Per the
spec it tracks the node at the start of the traveler's current edge and the
elapsed-time offset into that edge (offset defaulting to zero at a node). -/
structure RouteProgress where
  node : ℕ
  offset : ℚ := 0
  deriving DecidableEq, Repr

/-- Modelled from the spec: `Route.from_node` is called by
`TransportNetwork.traverse_route` but absent from `routes.py` in `src/`.
Per the spec the route path is trimmed to start at the given node, mirroring
`Route.trim_path_to_node` (`path[index:]`). -/
def Route.from_node (r : Route) (node : ℕ) : List ℕ :=
  r.path.dropWhile (fun n => n ≠ node)

/-- `TransportNetwork.get_path_duration` (lines 115–128): sum of the edge
times of the path's consecutive node pairs. -/
def getPathDuration (net : NetModel) : List ℕ → ℚ
  | u :: v :: rest => net.edgeTime u v + getPathDuration net (v :: rest)
  | _ => 0

/-- Loop body of `TransportNetwork._get_final_edge` with the accumulated
`cumulative_time` made explicit. -/
def getFinalEdgeAux (net : NetModel) : List ℕ → ℚ → ℚ → Option (Edge × ℚ × ℚ)
  | u :: v :: rest, time, cum =>
    let et := net.edgeTime u v
    if cum + et > time then some (⟨u, v⟩, et, time - cum)
    else getFinalEdgeAux net (v :: rest) time (cum + et)
  | _, _, _ => none

/-- `TransportNetwork._get_final_edge` (lines 39–66): walk the path
accumulating edge times until the first edge whose completion would exceed
`time`; return that edge, its traversal time and the time already spent on it.
Falling off the loop returns Python `None` (`none` here). -/
def getFinalEdge (net : NetModel) (path : List ℕ) (time : ℚ) : Option (Edge × ℚ × ℚ) :=
  getFinalEdgeAux net path time 0

/-- `TransportNetwork._get_point_along_edge` (lines 96–113) for an edge whose
geometry is the straight line between its endpoints
(`_create_line`/`_get_edge_geometry` when no explicit `geometry` attribute is
set): shapely's `interpolate(progress * length)` on a single-segment
`LineString` is the affine point at parameter `progress`. -/
def getPointAlongEdge (net : NetModel) (e : Edge) (progress : ℚ) : ℚ × ℚ :=
  let startPos := net.coords e.u
  let endPos := net.coords e.v
  (startPos.1 + progress * (endPos.1 - startPos.1),
   startPos.2 + progress * (endPos.2 - startPos.2))

/-- `TransportNetwork.traverse_route` (lines 174–211).  The remaining path is
`route.from_node(progress.node)`; `traversal_time = time_step + progress.offset`.
If it strictly exceeds the remaining path duration the agent arrives: progress
jumps to the final path node, position is Python `None`, and the leftover time
is returned.  Otherwise `_get_final_edge` locates the current edge and the new
position is interpolated `new_offset / edge_time` along it.  The outer `none`
models the `TypeError` raised on the `else` branch when `_get_final_edge`
returns Python `None` and `traverse_route` unpacks it. -/
def traverseRoute (net : NetModel) (route : Route) (progress : RouteProgress)
    (timeStep : ℚ) : Option (RouteProgress × Option (ℚ × ℚ) × ℚ) :=
  let remainingPath := route.from_node progress.node
  let pathTime := getPathDuration net remainingPath
  let traversalTime := timeStep + progress.offset
  if traversalTime > pathTime then
    some (⟨route.path.getLastD 0, 0⟩, none, traversalTime - pathTime)
  else
    match getFinalEdge net remainingPath traversalTime with
    | none => none
    | some (e, edgeTime, newOffset) =>
      some (⟨e.u, newOffset⟩, some (getPointAlongEdge net e (newOffset / edgeTime)), 0)

/-! ## Comfort cache — `src/transport_model/memory.py` -/

/-- `RoadType` from `routes.py`: road class and speed-limit string, compared
and hashed by value. -/
structure RoadType where
  highway : String
  maxspeed : String
  deriving DecidableEq, Repr

/-- In-place update of a Python `dict` modelled as an association list with
unique keys: replace the binding of `k` if present, else append it. -/
def dictSet {α β : Type} [DecidableEq α] : List (α × β) → α → β → List (α × β)
  | [], k, v => [(k, v)]
  | (k', v') :: rest, k, v =>
    if k' = k then (k, v) :: rest else (k', v') :: dictSet rest k v

/-- Python `dict` lookup (`d[k]` guarded by `k in d`) on the association-list
model: the value bound to the key, or `none`. -/
def dictGet {α β : Type} [DecidableEq α] : List (α × β) → α → Option β
  | [], _ => none
  | (k', v') :: rest, k => if k' = k then some v' else dictGet rest k

/-- `TravelMemory.comfort_memory`: `dict[RoadType, dict[str, int]]`. -/
abbrev ComfortMemory : Type := List (RoadType × List (String × ℤ))

/-- `TravelMemory.__init__`: `comfort_memory = {}`. -/
def ComfortMemory.empty : ComfortMemory := []

/-- `TravelMemory.store_comfort` (lines 147–158): create the inner dict for
the road type if absent, then set the mode's comfort value. -/
def storeComfort (mem : ComfortMemory) (road : RoadType) (mode : String)
    (comfort : ℤ) : ComfortMemory :=
  let inner := (dictGet mem road).getD []
  dictSet mem road (dictSet inner mode comfort)

/-- `TravelMemory.get_comfort` (lines 160–172): `None` when the road type or
the mode is missing, the stored value otherwise. -/
def getComfort (mem : ComfortMemory) (road : RoadType) (mode : String) : Option ℤ :=
  match dictGet mem road with
  | none => none
  | some inner => dictGet inner mode

/-- One mutation of the comfort cache.  `store_comfort` is the only
`TravelMemory` method that writes `comfort_memory`. -/
inductive ComfortOp where
  | store (road : RoadType) (mode : String) (comfort : ℤ)
  deriving DecidableEq, Repr

/-- Apply a sequence of comfort-cache mutations in order. -/
def applyComfortOps (mem : ComfortMemory) : List ComfortOp → ComfortMemory
  | [] => mem
  | .store r m c :: rest => applyComfortOps (storeComfort mem r m c) rest

/-- Whether an operation writes the given `(road, mode)` key pair. -/
def ComfortOp.targets (op : ComfortOp) (road : RoadType) (mode : String) : Prop :=
  match op with
  | .store r m _ => r = road ∧ m = mode

instance (op : ComfortOp) (road : RoadType) (mode : String) :
    Decidable (op.targets road mode) := by
  unfold ComfortOp.targets; cases op; infer_instance

/-! ## Route choice and destination resolution — `src/transport_model/person.py` -/

/-- Python list indexing `xs[i]`: negative indices count from the end;
out-of-range indices raise `IndexError` (`none`). -/
def pythonListGet {α : Type} (xs : List α) (i : ℤ) : Option α :=
  if 0 ≤ i then
    if h : i.toNat < xs.length then some (xs.get ⟨i.toNat, h⟩) else none
  else
    let j := i + xs.length
    if 0 ≤ j then
      if h : j.toNat < xs.length then some (xs.get ⟨j.toNat, h⟩) else none
    else none

/-- `PersonAgent._clean_route_choice_response` (lines 195–200): split the raw
oracle response on newlines, parse the first line with `int(...)` (which may
raise, modelled by `none`), and take the last line as the justification. -/
def cleanRouteChoiceResponse (response : String) : Option (ℤ × String) :=
  let splitResponse := splitOnChar '\n' response
  match parsePyInt (splitResponse.headD "") with
  | none => none
  | some routeId => some (routeId, splitResponse.getLastD "")

/-- The selection step of `PersonAgent._choose_a_route` (lines 202–226): the
oracle's index is used directly as `routes[route_id]` with no bounds
validation, so an out-of-range index raises `IndexError` (`none`). -/
def chooseRoute (routes : List Route) (response : String) : Option (Route × String) :=
  match cleanRouteChoiceResponse response with
  | none => none
  | some (routeId, justification) =>
    match pythonListGet routes routeId with
    | none => none
    | some route => some (route, justification)

/-- Loop of `PersonAgent._get_action_location` (lines 357–370): up to `fuel`
oracle queries (the code uses `for _ in range(3)`), numbered from `k`; return
the first reply that passes the model's known-location membership test,
falling back to the agent's current location (and a warning) when none does.
Also returns how many oracle queries were made. -/
def getActionLocationAux (oracle : ℕ → String) (isLocation : String → Bool)
    (loc : String) : ℕ → ℕ → String × ℕ
  | 0, _ => (loc, 0)
  | fuel + 1, k =>
    let actionLocation := oracle k
    if isLocation actionLocation then (actionLocation, 1)
    else
      let rest := getActionLocationAux oracle isLocation loc fuel (k + 1)
      (rest.1, rest.2 + 1)

/-- `PersonAgent._get_action_location`: three attempts starting at query 0. -/
def getActionLocation (oracle : ℕ → String) (isLocation : String → Bool)
    (loc : String) : String × ℕ :=
  getActionLocationAux oracle isLocation loc 3 0

/-- `Trip` from `routes.py`. -/
structure Trip where
  origin : String
  destination : String
  start_time : Time
  deriving DecidableEq, Repr

/-- The state read and written by `PersonAgent._next_plan_step`: the person's
remaining `daily_plan`, the agent's `location` and its planned `trip`. -/
structure PlanState where
  plan : List (Time × String)
  location : String
  trip : Option Trip
  deriving DecidableEq, Repr

/-- `PersonAgent._next_plan_step` (lines 372–388): pop the next plan action;
resolve its destination with `_get_action_location` (the oracle replies for
action `a` are `oracle a 0`, `oracle a 1`, …); when the destination equals the
current location the agent does not move for that action and the next step is
loaded recursively, otherwise a `Trip` is created. -/
def nextPlanStep (oracle : String → ℕ → String) (isLocation : String → Bool) :
    PlanState → PlanState
  | ⟨[], loc, trip⟩ => ⟨[], loc, trip⟩
  | ⟨(time, action) :: rest, loc, trip⟩ =>
    let destination := (getActionLocation (oracle action) isLocation loc).1
    if destination = loc then
      nextPlanStep oracle isLocation ⟨rest, loc, trip⟩
    else
      ⟨rest, loc, some ⟨loc, destination, time⟩⟩

/-! ## Oracle response cache — `src/llm/llm.py` -/

/-- One row of the sqlite `cache` table: `(system_prompt, content, response)`.
The table is a list of rows in insertion order. -/
abbrev Cache : Type := List (String × String × String)

/-- `query_cache` (lines 23–30): `SELECT … WHERE system_prompt=? AND
content=?` followed by `fetchone` returns the first matching row's response
column, or `None`. -/
def queryCache : Cache → String → String → Option String
  | [], _, _ => none
  | row :: rest, system_prompt, content =>
    if row.1 = system_prompt ∧ row.2.1 = content then some row.2.2
    else queryCache rest system_prompt content

/-- `generate_response` (lines 51–61): return the cached response when one
exists; otherwise query the language model, insert the new row and return it.
The boolean records whether the language model was queried. -/
def generateResponse (llm : String → String → String) (cache : Cache)
    (system_prompt content : String) : Cache × String × Bool :=
  match queryCache cache system_prompt content with
  | some response => (cache, response, false)
  | none =>
    let response := llm system_prompt content
    (cache ++ [(system_prompt, content, response)], response, true)

/-- The cache after a sequence of `generate_response` calls. -/
def runGenerateCalls (llm : String → String → String) (cache : Cache) :
    List (String × String) → Cache
  | [] => cache
  | (sp, c) :: rest => runGenerateCalls llm (generateResponse llm cache sp c).1 rest

/-! ## Shared concrete networks -/

/-- A single-edge walk network: one 500 m edge traversed at 5 km/h
(`ActiveNetwork._get_edge_time` with the agent's speed applied), node
coordinates given by `coords`. -/
def walkNet (coords : ℕ → ℚ × ℚ) : NetModel :=
  ⟨coords, fun _ _ => activeEdgeTime 500 5⟩

/-! ## Claims -/

/-- C1: the claim says that whenever `time_step + offset ≥` the remaining path
duration, `traverse_route` reports arrival (position `None`, leftover
`budget + offset − duration`), with ties resolving to "arrived" with leftover
0.  The code disagrees at the tie: `traverse_route` tests `traversal_time >
path_time` strictly, so on an exact tie it falls through to `_get_final_edge`,
whose loop condition `cumulative + edge_time > time` also fails on the last
edge, making it return `None`, which `traverse_route` then unpacks — a
`TypeError` (modelled by `none`).  On a 6-minute single-edge route: a 6-minute
budget from offset 0 crashes, while a 7-minute budget correctly arrives with
leftover 1. -/
theorem c1_exact_tie_crashes_traverse :
    getPathDuration (walkNet fun n => ((n : ℚ), 0)) [0, 1] = 6 ∧
    traverseRoute (walkNet fun n => ((n : ℚ), 0)) ⟨"walk", [0, 1]⟩ ⟨0, 0⟩ 6 = none ∧
    traverseRoute (walkNet fun n => ((n : ℚ), 0)) ⟨"walk", [0, 1]⟩ ⟨0, 0⟩ 7 =
      some (⟨1, 0⟩, none, 1) := by
  refine ⟨?_, ?_, ?_⟩ <;>
    simp [traverseRoute, walkNet, Route.from_node, getPathDuration, getFinalEdge,
      getFinalEdgeAux, activeEdgeTime] <;>
    norm_num

/-- C2: the claim says route selection with an out-of-range oracle index does
not crash and falls back to a defined candidate.  The code uses the parsed
index directly as `routes[route_id]` with no bounds validation, so with 3
candidates the reply `"5\nbecause"` raises `IndexError` (modelled by `none`);
an in-range reply selects normally. -/
theorem c2_out_of_range_index_crashes :
    chooseRoute [⟨"walk", [0, 1]⟩, ⟨"bike", [0, 1]⟩, ⟨"drive", [0, 1]⟩]
        "5\nbecause" = none ∧
    chooseRoute [⟨"walk", [0, 1]⟩, ⟨"bike", [0, 1]⟩, ⟨"drive", [0, 1]⟩]
        "2\nbecause" = some (⟨"drive", [0, 1]⟩, "because") := by
  constructor <;>
    simp [chooseRoute, cleanRouteChoiceResponse, splitOnChar, splitCharAux,
      parsePyInt, pyTrim, digitsToNat, pythonListGet]

/-- C4: on a walk network whose route is a single 500 m edge with
straight-line geometry at 5 km/h, the edge time is 6 minutes; one traverse
call with a 3-minute budget from offset 0 returns offset 3, leftover 0, and
the position interpolated 50 % along the edge; and in general the walk/bike
edge time is `((length_m / 1000) / speed_kmh) * 60`. -/
theorem c4_walk_scenario :
    activeEdgeTime 500 5 = 6 ∧
    (∀ coords : ℕ → ℚ × ℚ,
      traverseRoute (walkNet coords) ⟨"walk", [0, 1]⟩ ⟨0, 0⟩ 3 =
        some (⟨0, 3⟩,
          some ((coords 0).1 + 1 / 2 * ((coords 1).1 - (coords 0).1),
                (coords 0).2 + 1 / 2 * ((coords 1).2 - (coords 0).2)),
          0)) ∧
    (∀ length speed : ℚ, activeEdgeTime length speed = ((length / 1000) / speed) * 60) := by
  refine ⟨by norm_num [activeEdgeTime], ?_, fun _ _ => rfl⟩
  intro coords
  simp [traverseRoute, walkNet, Route.from_node, getPathDuration, getFinalEdge,
    getFinalEdgeAux, activeEdgeTime, getPointAlongEdge]
  norm_num

/-- C3: for canonical clock values, `time_to` is non-negative; and advancing
a canonical clock by `n` minutes (`0 < n < 60`) and asking for the forward
distance back to the original time gives `1440 − n`: the advance plus the
wrapped distance sum to 24 hours. -/
theorem c3_time_to_nonneg_roundtrip :
    (∀ a b : Time, a.Canonical → b.Canonical → 0 ≤ a.time_to b) ∧
    (∀ (t : Time) (n : ℚ), t.Canonical → 0 < n → n < 60 →
      (t.n_mins_from_now n).time_to t = 1440 - n) := by
  constructor
  · rintro a b ⟨ha0, ha23, ham0, ham60⟩ ⟨hb0, hb23, hbm0, hbm60⟩
    have ha23' : (a.hour : ℚ) ≤ 23 := by exact_mod_cast ha23
    have hb0' : (0 : ℚ) ≤ (b.hour : ℚ) := by exact_mod_cast hb0
    unfold Time.time_to
    split_ifs with h
    · linarith
    · push_neg at h
      obtain ⟨hle, himp⟩ := h
      rcases lt_or_eq_of_le hle with hlt | heq
      · have : (a.hour : ℚ) + 1 ≤ (b.hour : ℚ) := by exact_mod_cast hlt
        linarith
      · have := himp heq.symm
        have heq' : (b.hour : ℚ) = (a.hour : ℚ) := by exact_mod_cast heq.symm
        linarith
  · rintro t n ⟨h0, h23, hm0, hm60⟩ hn0 hn60
    unfold Time.n_mins_from_now
    split_ifs with hwrap hh24
    · -- minute overflow and hour 23 wraps to hour 0
      have ht23 : t.hour = 23 := by omega
      unfold Time.time_to
      rw [if_neg]
      · simp only [ht23]
        push_cast
        ring
      · simp only [ht23]
        rintro (h | ⟨h, hm⟩)
        · omega
        · omega
    · -- minute overflow, hour increments without wrapping
      unfold Time.time_to
      rw [if_pos]
      · push_cast
        ring
      · exact Or.inl (show t.hour < t.hour + 1 by omega)
    · -- no minute overflow: same hour, later minute
      unfold Time.time_to
      rw [if_pos]
      · push_cast
        ring
      · exact Or.inr ⟨rfl, by simp; linarith⟩

/-- Witness for C3 at concrete canonical clock values. -/
theorem c3_witness :
    0 ≤ (Time.mk 16 30).time_to ⟨16, 15⟩ ∧
    ((Time.mk 23 50).n_mins_from_now 15).time_to ⟨23, 50⟩ = 1440 - 15 := by
  constructor
  · exact c3_time_to_nonneg_roundtrip.1 ⟨16, 30⟩ ⟨16, 15⟩
      (by norm_num [Time.Canonical]) (by norm_num [Time.Canonical])
  · exact c3_time_to_nonneg_roundtrip.2 ⟨23, 50⟩ 15
      (by norm_num [Time.Canonical]) (by norm_num) (by norm_num)

/-- C5: drive edge time is `((length_m / 1000) / (limit_kmh * speed_factor)) * 60`
with the configured default limit when no `maxspeed` is declared; an `mph`
limit is converted by `* 1.609344`; a list of limits is replaced by its
arithmetic mean; the caller-supplied `speed` argument has no effect; and
`maxspeed "30 mph"`, factor 0.75, length 1000 m give ≈ 1.657 minutes. -/
theorem c5_drive_edge_time :
    (∀ defaultLimit speedFactor len speed,
      driveEdgeTime defaultLimit speedFactor len none speed =
        some (((len / 1000) / (defaultLimit * speedFactor)) * 60)) ∧
    (∀ (s t1 : String) (k : ℤ), pythonSplit s = [t1, "mph"] → parsePyInt t1 = some k →
      getNumLimit s = some ((k : ℚ) * (1609344 / 1000000))) ∧
    (∀ (defaultLimit : ℚ) (ss : List String) (qs : List ℚ),
      ss.mapM getNumLimit = some qs →
      getSpeedLimit defaultLimit (some (.multi ss)) = some (qs.sum / (ss.length : ℚ))) ∧
    (∀ defaultLimit speedFactor len ms s₁ s₂,
      driveEdgeTime defaultLimit speedFactor len ms s₁ =
        driveEdgeTime defaultLimit speedFactor len ms s₂) ∧
    (∃ t : ℚ, driveEdgeTime 48 (3 / 4) 1000 (some (.single "30 mph")) none = some t ∧
      |t - 1657 / 1000| < 1 / 1000) := by
  refine ⟨fun _ _ _ _ => rfl, ?_, ?_, fun _ _ _ _ _ _ => rfl, ?_⟩
  · intro s t1 k hs hk
    simp [getNumLimit, hs, hk]
  · intro defaultLimit ss qs h
    simp only [getSpeedLimit]
    rw [h]
    rfl
  · refine ⟨62500 / 37719, ?_, ?_⟩
    · simp [driveEdgeTime, getSpeedLimit, getNumLimit, pythonSplit, splitWsAux,
        parsePyInt, pyTrim, digitsToNat]
      norm_num
    · rw [abs_sub_lt_iff]
      constructor <;> norm_num

/-- Witness for C5 at concrete inputs: the mph conversion on `"30 mph"` and
the arithmetic mean of a declared limit list. -/
theorem c5_witness :
    getNumLimit "30 mph" = some ((30 : ℤ) * (1609344 / 1000000) : ℚ) ∧
    getSpeedLimit 48 (some (.multi ["30 mph", "50 mph"])) =
      some (([((30 : ℤ) * (1609344 / 1000000) : ℚ),
              ((50 : ℤ) * (1609344 / 1000000) : ℚ)].sum) /
            (((["30 mph", "50 mph"] : List String).length : ℚ))) := by
  constructor
  · exact c5_drive_edge_time.2.1 "30 mph" "30" 30 (by decide) (by decide)
  · refine c5_drive_edge_time.2.2.1 48 ["30 mph", "50 mph"]
      [((30 : ℤ) * (1609344 / 1000000) : ℚ), ((50 : ℤ) * (1609344 / 1000000) : ℚ)] ?_
    have h30 : getNumLimit "30 mph" = some ((30 : ℤ) * (1609344 / 1000000) : ℚ) :=
      c5_drive_edge_time.2.1 "30 mph" "30" 30 (by decide) (by decide)
    have h50 : getNumLimit "50 mph" = some ((50 : ℤ) * (1609344 / 1000000) : ℚ) :=
      c5_drive_edge_time.2.1 "50 mph" "50" 50 (by decide) (by decide)
    simp only [List.mapM_cons, List.mapM_nil, h30, h50]
    rfl

/-- C9: `_get_num_limit` is total exactly under the format precondition that
the maxspeed string splits into at least two whitespace-separated tokens whose
first parses as an integer; the bare string `"30"` raises (`none`), and under
the precondition the error branch is unreachable (the result is `isSome`). -/
theorem c9_maxspeed_format_precondition :
    getNumLimit "30" = none ∧
    (∀ s : String, (getNumLimit s).isSome ↔
      2 ≤ (pythonSplit s).length ∧ (parsePyInt ((pythonSplit s).headD "")).isSome) := by
  constructor
  · simp [getNumLimit, pythonSplit, splitWsAux, parsePyInt, pyTrim, digitsToNat]
  · intro s
    cases hps : pythonSplit s with
    | nil => simp [getNumLimit, hps]
    | cons p0 rest =>
      cases hpi : parsePyInt p0 with
      | none => simp [getNumLimit, hps, hpi]
      | some n =>
        cases rest with
        | nil => simp [getNumLimit, hps, hpi]
        | cons p1 rest' =>
          simp only [getNumLimit, hps, hpi, List.get?, List.headD, List.length]
          constructor
          · intro _
            exact ⟨by omega, by simp [hpi]⟩
          · intro _
            split_ifs <;> simp

/-- Witness for C9: the characterisation applied at the well-formed input
`"30 mph"`. -/
theorem c9_witness :
    (getNumLimit "30 mph").isSome ↔
      2 ≤ (pythonSplit "30 mph").length ∧
        (parsePyInt ((pythonSplit "30 mph").headD "")).isSome :=
  c9_maxspeed_format_precondition.2 "30 mph"

/-- C6: starting from a fresh `MemoryEntry`, applying the running-average
update for durations `d1..dN` leaves `count = N` and `travel_time` equal to the
arithmetic mean; hence the result is the same for every ordering of a fixed
multiset of durations, and trips of 10 and 20 minutes give mean 15, count 2. -/
theorem c6_running_average :
    (∀ l : List ℚ, MemoryEntry.updateAll MemoryEntry.fresh l =
      ⟨l.sum / (l.length : ℚ), l.length⟩) ∧
    (∀ l l' : List ℚ, l.Perm l' →
      MemoryEntry.updateAll MemoryEntry.fresh l = MemoryEntry.updateAll MemoryEntry.fresh l') ∧
    MemoryEntry.updateAll MemoryEntry.fresh [10, 20] = ⟨15, 2⟩ := by
  refine ⟨MemoryEntry.updateAll_fresh, ?_, ?_⟩
  · intro l l' h
    rw [MemoryEntry.updateAll_fresh, MemoryEntry.updateAll_fresh, h.sum_eq, h.length_eq]
  · rw [MemoryEntry.updateAll_fresh]
    norm_num

/-- Witness for C6: order independence applied to the two concrete trips. -/
theorem c6_witness :
    MemoryEntry.updateAll MemoryEntry.fresh [10, 20] =
      MemoryEntry.updateAll MemoryEntry.fresh [20, 10] :=
  c6_running_average.2.1 [10, 20] [20, 10] (List.Perm.swap 20 10 [])

/-! Dictionary lemmas for the comfort cache. -/

theorem dictGet_dictSet_self {α β : Type} [DecidableEq α]
    (l : List (α × β)) (k : α) (v : β) :
    dictGet (dictSet l k v) k = some v := by
  induction l with
  | nil => simp [dictSet, dictGet]
  | cons kv rest ih =>
    obtain ⟨k', v'⟩ := kv
    by_cases h : k' = k <;> simp [dictSet, dictGet, h, ih]

theorem dictGet_dictSet_ne {α β : Type} [DecidableEq α]
    (l : List (α × β)) (k k' : α) (v : β) (h : k' ≠ k) :
    dictGet (dictSet l k v) k' = dictGet l k' := by
  induction l with
  | nil => simp [dictSet, dictGet, Ne.symm h]
  | cons kv rest ih =>
    obtain ⟨k'', v''⟩ := kv
    by_cases hk : k'' = k
    · subst hk
      simp [dictSet, dictGet, Ne.symm h]
    · by_cases hk' : k'' = k' <;> simp [dictSet, dictGet, hk, hk', ih, h]

theorem getComfort_store_self (mem : ComfortMemory) (r : RoadType) (m : String) (c : ℤ) :
    getComfort (storeComfort mem r m c) r m = some c := by
  simp [getComfort, storeComfort, dictGet_dictSet_self]

theorem getComfort_store_ne (mem : ComfortMemory) (r' : RoadType) (m' : String) (c : ℤ)
    (r : RoadType) (m : String) (h : ¬(r' = r ∧ m' = m)) :
    getComfort (storeComfort mem r' m' c) r m = getComfort mem r m := by
  by_cases hr : r' = r
  · subst hr
    have hm : m' ≠ m := fun hm => h ⟨rfl, hm⟩
    unfold getComfort storeComfort
    rw [dictGet_dictSet_self]
    cases hmem : dictGet mem r' with
    | none => simp [hmem, dictGet_dictSet_ne _ _ _ _ (Ne.symm hm), dictGet, hm]
    | some inner => simp [hmem, dictGet_dictSet_ne _ _ _ _ (Ne.symm hm)]
  · unfold getComfort storeComfort
    rw [dictGet_dictSet_ne _ _ _ _ (fun e => hr e.symm)]

theorem getComfort_applyOps (ops : List ComfortOp) :
    ∀ (mem : ComfortMemory) (r : RoadType) (m : String),
      (∀ op ∈ ops, ¬ op.targets r m) →
      getComfort (applyComfortOps mem ops) r m = getComfort mem r m := by
  induction ops with
  | nil => intro mem r m _; rfl
  | cons op rest ih =>
    intro mem r m h
    obtain ⟨r', m', c⟩ := op
    rw [applyComfortOps, ih _ _ _ (fun op hop => h op (List.mem_cons_of_mem _ hop))]
    exact getComfort_store_ne _ _ _ _ _ _ (h _ (List.mem_cons_self _ _))

/-- C7: the comfort cache is a pure memoization keyed by value-equal
`RoadType` and mode: `get_comfort` is `None` on a fresh cache and stays `None`
while no `store_comfort` hits that key pair; after `store_comfort(road, mode,
s)`, every later `get_comfort(road, mode)` — across any number of stores to
other key pairs, no operation ever evicting — returns exactly `s`. -/
theorem c7_comfort_cache :
    (∀ (r : RoadType) (m : String), getComfort ComfortMemory.empty r m = none) ∧
    (∀ (ops : List ComfortOp) (r : RoadType) (m : String),
      (∀ op ∈ ops, ¬ op.targets r m) →
      getComfort (applyComfortOps ComfortMemory.empty ops) r m = none) ∧
    (∀ (mem : ComfortMemory) (ops : List ComfortOp) (r : RoadType) (m : String) (c : ℤ),
      (∀ op ∈ ops, ¬ op.targets r m) →
      getComfort (applyComfortOps (storeComfort mem r m c) ops) r m = some c) := by
  refine ⟨fun _ _ => rfl, ?_, ?_⟩
  · intro ops r m h
    rw [getComfort_applyOps ops _ _ _ h]
    rfl
  · intro mem ops r m c h
    rw [getComfort_applyOps ops _ _ _ h]
    exact getComfort_store_self mem r m c

/-- Witness for C7: a stored comfort value survives a later store to a
different key pair. -/
theorem c7_witness :
    getComfort
      (applyComfortOps
        (storeComfort ComfortMemory.empty ⟨"primary", "30 mph"⟩ "bike" 7)
        [ComfortOp.store ⟨"residential", "n/a"⟩ "walk" 3])
      ⟨"primary", "30 mph"⟩ "bike" = some 7 :=
  c7_comfort_cache.2.2 ComfortMemory.empty
    [ComfortOp.store ⟨"residential", "n/a"⟩ "walk" 3]
    ⟨"primary", "30 mph"⟩ "bike" 7 (by decide)

/-! Helper lemmas for destination resolution. -/

theorem getActionLocationAux_queries_le (oracle : ℕ → String) (isLocation : String → Bool)
    (loc : String) : ∀ (fuel k : ℕ),
    (getActionLocationAux oracle isLocation loc fuel k).2 ≤ fuel := by
  intro fuel
  induction fuel with
  | zero => intro k; simp [getActionLocationAux]
  | succ f ih =>
    intro k
    by_cases h : isLocation (oracle k) <;> simp [getActionLocationAux, h]
    exact ih (k + 1)

theorem getActionLocation_all_invalid (oracle : ℕ → String) (isLocation : String → Bool)
    (loc : String) (h : ∀ k < 3, isLocation (oracle k) = false) :
    getActionLocation oracle isLocation loc = (loc, 3) := by
  have h0 := h 0 (by norm_num)
  have h1 := h 1 (by norm_num)
  have h2 := h 2 (by norm_num)
  simp [getActionLocation, getActionLocationAux, h0, h1, h2]

theorem nextPlanStep_location (oracle : String → ℕ → String) (isLocation : String → Bool) :
    ∀ (plan : List (Time × String)) (loc : String) (trip : Option Trip),
      (nextPlanStep oracle isLocation ⟨plan, loc, trip⟩).location = loc := by
  intro plan
  induction plan with
  | nil => intro loc trip; simp [nextPlanStep]
  | cons entry rest ih =>
    intro loc trip
    obtain ⟨time, action⟩ := entry
    by_cases h : (getActionLocation (oracle action) isLocation loc).1 = loc <;>
      simp [nextPlanStep, h]
    exact ih loc trip

/-- C8: destination resolution queries the oracle at most 3 times; when no
reply passes the known-location test, the resolved destination is the agent's
current location, so `_next_plan_step` creates no trip for that action (the
resulting state is exactly that of processing the rest of the plan), and
`_next_plan_step` never changes the traveler's location. -/
theorem c8_destination_resolution :
    (∀ (oracle : ℕ → String) (isLocation : String → Bool) (loc : String),
      (getActionLocation oracle isLocation loc).2 ≤ 3) ∧
    (∀ (oracle : ℕ → String) (isLocation : String → Bool) (loc : String),
      (∀ k < 3, isLocation (oracle k) = false) →
      getActionLocation oracle isLocation loc = (loc, 3)) ∧
    (∀ (oracle : String → ℕ → String) (isLocation : String → Bool) (st : PlanState),
      (nextPlanStep oracle isLocation st).location = st.location) ∧
    (∀ (oracle : String → ℕ → String) (isLocation : String → Bool) (time : Time)
        (action : String) (rest : List (Time × String)) (loc : String) (trip : Option Trip),
      (∀ k < 3, isLocation (oracle action k) = false) →
      nextPlanStep oracle isLocation ⟨(time, action) :: rest, loc, trip⟩ =
        nextPlanStep oracle isLocation ⟨rest, loc, trip⟩) := by
  refine ⟨?_, getActionLocation_all_invalid, ?_, ?_⟩
  · intro oracle isLocation loc
    exact getActionLocationAux_queries_le oracle isLocation loc 3 0
  · intro oracle isLocation st
    obtain ⟨plan, loc, trip⟩ := st
    exact nextPlanStep_location oracle isLocation plan loc trip
  · intro oracle isLocation time action rest loc trip h
    have hres := getActionLocation_all_invalid (oracle action) isLocation loc h
    simp [nextPlanStep, hres]

/-- Witness for C8: an oracle whose replies never pass the membership test
leaves the agent at home and produces no trip for the action. -/
theorem c8_witness :
    getActionLocation (fun _ => "nowhere") (fun _ => false) "home" = ("home", 3) ∧
    nextPlanStep (fun _ _ => "nowhere") (fun _ => false)
        ⟨[(⟨9, 0⟩, "shop")], "home", none⟩ =
      nextPlanStep (fun _ _ => "nowhere") (fun _ => false) ⟨[], "home", none⟩ :=
  ⟨c8_destination_resolution.2.1 (fun _ => "nowhere") (fun _ => false) "home"
      (fun _ _ => rfl),
   c8_destination_resolution.2.2.2 (fun _ _ => "nowhere") (fun _ => false)
      ⟨9, 0⟩ "shop" [] "home" none (fun _ _ => rfl)⟩

/-! Helper lemmas for the oracle response cache. -/

theorem queryCache_append_of_some :
    ∀ (cache rows : Cache) (sp c r : String),
      queryCache cache sp c = some r → queryCache (cache ++ rows) sp c = some r := by
  intro cache
  induction cache with
  | nil => intro rows sp c r h; simp [queryCache] at h
  | cons row rest ih =>
    intro rows sp c r h
    by_cases hrow : row.1 = sp ∧ row.2.1 = c
    · simpa [queryCache, hrow] using h
    · rw [queryCache] at h
      rw [List.cons_append, queryCache]
      rw [if_neg hrow] at h ⊢
      exact ih rows sp c r h

theorem queryCache_append_of_none :
    ∀ (cache rows : Cache) (sp c : String),
      queryCache cache sp c = none →
      queryCache (cache ++ rows) sp c = queryCache rows sp c := by
  intro cache
  induction cache with
  | nil => intro rows sp c _; rfl
  | cons row rest ih =>
    intro rows sp c h
    by_cases hrow : row.1 = sp ∧ row.2.1 = c
    · simp [queryCache, hrow] at h
    · rw [queryCache] at h
      rw [List.cons_append, queryCache]
      rw [if_neg hrow] at h ⊢
      exact ih rows sp c h

theorem queryCache_runGenerateCalls (llm : String → String → String) :
    ∀ (calls : List (String × String)) (cache : Cache) (sp c r : String),
      queryCache cache sp c = some r →
      queryCache (runGenerateCalls llm cache calls) sp c = some r := by
  intro calls
  induction calls with
  | nil => intro cache sp c r h; exact h
  | cons call rest ih =>
    intro cache sp c r h
    obtain ⟨sp', c'⟩ := call
    rw [runGenerateCalls]
    cases hq : queryCache cache sp' c' with
    | some resp =>
      rw [show (generateResponse llm cache sp' c').1 = cache by
        simp [generateResponse, hq]]
      exact ih cache sp c r h
    | none =>
      rw [show (generateResponse llm cache sp' c').1 =
            cache ++ [(sp', c', llm sp' c')] by simp [generateResponse, hq]]
      exact ih _ sp c r (queryCache_append_of_some cache _ sp c r h)

/-- C10: the cached oracle interface is deterministic per prompt pair.  When a
response for `(system_prompt, content)` is already cached, `generate_response`
returns exactly the stored string, does not query the language model (the
boolean is `false`) and leaves the cache unchanged; a cache miss stores the
model's reply so that it is found afterwards; and the stored reply keeps being
returned without a model query after any sequence of intervening
`generate_response` calls. -/
theorem c10_cache_determinism :
    (∀ (llm : String → String → String) (cache : Cache) (sp c r : String),
      queryCache cache sp c = some r →
      generateResponse llm cache sp c = (cache, r, false)) ∧
    (∀ (llm : String → String → String) (cache : Cache) (sp c : String),
      queryCache cache sp c = none →
      queryCache (generateResponse llm cache sp c).1 sp c = some (llm sp c)) ∧
    (∀ (llm : String → String → String) (cache : Cache)
        (calls : List (String × String)) (sp c r : String),
      queryCache cache sp c = some r →
      generateResponse llm (runGenerateCalls llm cache calls) sp c =
        (runGenerateCalls llm cache calls, r, false)) := by
  refine ⟨?_, ?_, ?_⟩
  · intro llm cache sp c r h
    simp [generateResponse, h]
  · intro llm cache sp c h
    simp only [generateResponse, h]
    rw [queryCache_append_of_none cache _ sp c h]
    simp [queryCache]
  · intro llm cache calls sp c r h
    have := queryCache_runGenerateCalls llm calls cache sp c r h
    simp [generateResponse, this]

/-- Witness for C10: a cached prompt pair is answered from the cache (no model
query) even after an intervening call on a different pair. -/
theorem c10_witness :
    generateResponse (fun _ _ => "fresh")
        (runGenerateCalls (fun _ _ => "fresh") [("s", "c", "cached")] [("s", "d")])
        "s" "c" =
      (runGenerateCalls (fun _ _ => "fresh") [("s", "c", "cached")] [("s", "d")],
       "cached", false) :=
  c10_cache_determinism.2.2 (fun _ _ => "fresh") [("s", "c", "cached")]
    [("s", "d")] "s" "c" "cached" (by simp [queryCache])

end MesaGeo
